import Mathlib

/-!
Verification of the kpi-uploader core against its specification.

The definitions below are shallow embeddings of the Go source:
* the column-letter codec `pow26`/`Atoi`/`Itoa` is copied into the repo at
  src/unnamed/part_001 lines 1296-1341 (from github.com/takuoki/clmconv);
* the coordinate cache, value reconciler, write retrier and generic-mode
  orchestrator are embedded from `cellValueToSheetLetter`,
  `cellValueToSheetRow` and `updateGoogleSheetValues`
  (src/unnamed/part_001 lines 532-913);
* the legacy KPI path is embedded from `updateGoogleSheetKPI` and
  `writeSheetCell` (src/unnamed/part_001 lines 915-1075) together with the
  `errorCode` map of src/metrics.go.

Remote I/O (spreadsheet range reads, range updates, command execution) is
modelled by explicit environments that supply the result of each remote
call; loops with a data-dependent trip count are given explicit fuel so
that every definition is executable and kernel-reducible.  Go maps are
modelled as association lists with first-match lookup; Go `int` values that
are provably non-negative on every reachable state are modelled as `Nat`.
-/

namespace KpiUploader

/-! ## Cell values

Values coming back from a spreadsheet range read (`resp.Values`) are Go
`interface{}` values: strings or numbers.  `disp` models `fmt.Sprintf("%v", x)`
and plain `=` models Go interface equality. -/

inductive CellVal
  | s (v : String)
  | n (v : Int)
deriving DecidableEq

def CellVal.disp : CellVal → String
  | .s v => v
  | .n v => toString v

/-! ## Go map model: association lists, first match wins -/

def mapGet {α : Type} : List (String × α) → String → Option α
  | [], _ => none
  | (k', v) :: rest, k => if k' = k then some v else mapGet rest k

def mapSet {α : Type} : List (String × α) → String → α → List (String × α)
  | [], k, v => [(k, v)]
  | (k', v') :: rest, k, v =>
    if k' = k then (k', v) :: rest else (k', v') :: mapSet rest k v

/-- `keyCacheArr[k] = append(keyCacheArr[k], x)` -/
def arrApp (m : List (String × List Nat)) (k : String) (x : Nat) :
    List (String × List Nat) :=
  mapSet m k ((mapGet m k).getD [] ++ [x])

/-! ## strconv.Atoi, as used on the configured data-start row

Go's `strconv.Atoi` returns the parsed value, or 0 together with an error
for a malformed string; every call site of this repository discards the
error (`sheetDataStartRow, _ := strconv.Atoi(...)`), so the model returns
the value-or-zero directly. -/

def parseDigits : List Char → Nat → Option Nat
  | [], acc => some acc
  | c :: rest, acc =>
    if 48 ≤ c.toNat ∧ c.toNat ≤ 57 then parseDigits rest (acc * 10 + (c.toNat - 48))
    else none

def strconvAtoi (s : String) : Nat :=
  match s.data with
  | [] => 0
  | l => (parseDigits l 0).getD 0

/-! ## Column-letter codec (src/unnamed/part_001 lines 1296-1341)

```go
var pow26tab = [...]int{1, 26, 676, 17576, 456976, 11881376}
func pow26(n int) int {
    if 0 <= n && n <= 5 { return pow26tab[n] }
    return pow26(n-1) * 26
}
```
All reachable calls have a non-negative argument (theorem for claim C10),
so the total embedding takes a `Nat`; the table for 0..5 is kept verbatim. -/

def pow26 : Nat → Nat
  | 0 => 1
  | 1 => 26
  | 2 => 676
  | 3 => 17576
  | 4 => 456976
  | 5 => 11881376
  | n + 6 => pow26 (n + 5) * 26

/-- Fuel-limited version of `pow26` on `Int`, mirroring the Go recursion
exactly (including its non-termination on negative arguments, which shows
up as `none` for every amount of fuel). -/
def pow26tabI : List Int := [1, 26, 676, 17576, 456976, 11881376]

def pow26F : Nat → Int → Option Int
  | 0, _ => none
  | fuel + 1, n =>
    if 0 ≤ n ∧ n ≤ 5 then some (pow26tabI.getD n.toNat 0)
    else
      match pow26F fuel (n - 1) with
      | some r => some (r * 26)
      | none => none

/-!
```go
// Atoi converts alphabet to number.
func Atoi(s string) (int, error) {
    if s == "" { return 0, errors.New("argument is empty string") }
    var r int
    for i, c := range s {
        if 'A' <= c && c <= 'Z' { r += (int(c) - 64) * pow26(len(s)-i-1) }
        else if 'a' <= c && c <= 'z' { r += (int(c) - 96) * pow26(len(s)-i-1) }
        else { return 0, errors.New("must not contain non-alphabetic characters") }
    }
    return r - 1, nil
}
```
Rune comparisons `'A' <= c && c <= 'Z'` compare code points, i.e. `Char.toNat`
('A' = 65, 'Z' = 90, 'a' = 97, 'z' = 122); `pow26(len(s)-i-1)` is
`pow26 rest.length` for the character whose suffix is `rest`. -/

def atoiAux : List Char → Except String Int
  | [] => Except.ok 0
  | c :: rest =>
    if 65 ≤ c.toNat ∧ c.toNat ≤ 90 then
      match atoiAux rest with
      | Except.ok r => Except.ok (((c.toNat : Int) - 64) * (pow26 rest.length : Int) + r)
      | Except.error e => Except.error e
    else if 97 ≤ c.toNat ∧ c.toNat ≤ 122 then
      match atoiAux rest with
      | Except.ok r => Except.ok (((c.toNat : Int) - 96) * (pow26 rest.length : Int) + r)
      | Except.error e => Except.error e
    else Except.error "must not contain non-alphabetic characters"

def Atoi (s : String) : Except String Int :=
  if s = "" then Except.error "argument is empty string"
  else
    match atoiAux s.data with
    | Except.ok r => Except.ok (r - 1)
    | Except.error e => Except.error e

/-!
```go
// Itoa converts number to alphabet.
// If argument is negative, returns empty string.
func Itoa(i int) string {
    if i < 0 { return "" }
    var r []rune
    for c := 0; ; c++ {
        mod := i%pow26(c+1) + 1
        r = append([]rune{rune(mod/pow26(c) + 64)}, r...)
        i -= mod
        if i <= 0 { break }
    }
    return string(r)
}
```
The loop variable `i` is non-negative at every loop head (it starts
non-negative and the loop exits as soon as it drops to 0 or below), so the
loop is embedded on `Nat`: the Go exit test `i - mod <= 0` is the `Nat`
test `i ≤ mod`.  Each iteration subtracts `mod ≥ 1`, so `i₀ + 1` units of
fuel always suffice (theorem for claim C10); `Itoa` runs the loop with
exactly that much fuel. -/

def itoaLoop : Nat → Nat → Nat → List Char → Option (List Char)
  | 0, _, _, _ => none
  | fuel + 1, i, c, r =>
    if i ≤ i % pow26 (c + 1) + 1 then
      some (Char.ofNat ((i % pow26 (c + 1) + 1) / pow26 c + 64) :: r)
    else
      itoaLoop fuel (i - (i % pow26 (c + 1) + 1)) (c + 1)
        (Char.ofNat ((i % pow26 (c + 1) + 1) / pow26 c + 64) :: r)

def Itoa (i : Int) : String :=
  if i < 0 then ""
  else
    match itoaLoop (i.toNat + 1) i.toNat 0 [] with
    | some l => String.mk l
    | none => ""

/-- Bijective base-26 value of a digit string: the accumulated `r` of Go's
`Atoi` before the final `- 1`, specialised to upper-case digits. -/
def valAux : List Char → Nat
  | [] => 0
  | c :: rest => (c.toNat - 64) * 26 ^ rest.length + valAux rest

/-! ## Outcome codes (src/metrics.go lines 17-28)

```go
var ( syncStatusSynced = "synced"; syncStatusCollision = "collision"; syncStatusFailed = "failed" )
var errorCode = map[string]int{ syncStatusSynced: 1, syncStatusCollision: 2, syncStatusFailed: 3 }
```
A missing key yields Go's zero value 0. -/

def errorCode : List (String × Nat) := [("synced", 1), ("collision", 2), ("failed", 3)]

def errCode (s : String) : Nat := (mapGet errorCode s).getD 0

/-! ## Legacy mode: writeSheetCell (src/unnamed/part_001 lines 1027-1075)

```go
func writeSheetCell(kpi *KPIs, action string, value []interface{}, cell string,
    cfg *Config, srv *sheets.Service, vr *sheets.ValueRange, overwrite int) int {
    if overwrite == 0 {
        resp, err := srv.Spreadsheets.Values.Get(cfg.SpreadsheetID, cell).ValueRenderOption("UNFORMATTED_VALUE").Do()
        if err != nil { logit...Fatal("Read cell data from sheet") }
        if len(resp.Values) > 0 && resp.Values[0][0] != value[0] {
            logit...Warning("Skip ", action)
            return errorCode["collision"]
        }
    }
    logit...Info(action)
    vr.Values[0] = value
    _, err := srv.Spreadsheets.Values.Update(cfg.SpreadsheetID, cell, vr).ValueInputOption("USER_ENTERED").Do()
    if err != nil {
        logit...Fatal("Writing sheet cell")
        return errorCode["synced"]   // dead code: Fatal exits the process
    }
    return errorCode["failed"]       // the value returned on a successful update
}
```
`readCell cell` is the single-cell Get result (`none` models `len(resp.Values) == 0`,
i.e. an empty cell); `updateFails cell` tells whether the Update call errors;
`logit.Fatal` terminates the process, modelled as `none`. -/

structure WSC where
  code : Nat
  wrote : Bool
deriving DecidableEq

def writeSheetCell (readCell : String → Option CellVal) (updateFails : String → Bool)
    (value : CellVal) (cell : String) (overwrite : Nat) : Option WSC :=
  match overwrite, readCell cell with
  | 0, some v =>
    if v ≠ value then some ⟨errCode "collision", false⟩
    else if updateFails cell then none
    else some ⟨errCode "failed", true⟩
  | 0, none =>
    if updateFails cell then none else some ⟨errCode "failed", true⟩
  | _ + 1, _ =>
    if updateFails cell then none else some ⟨errCode "failed", true⟩

/-! ## Legacy mode: per-KPI write sequence (src/unnamed/part_001 lines 942-978)

```go
for _, kpi := range cfg.KPI {
    ok, out := scrapeEndpoint(&kpi)
    if !ok { continue }
    syncCount[writeSheetCell(&kpi, "Setting KPI title", []interface{}{kpi.Title},
        cfg.SheetName+"!"+cfg.SheetKeyCol+kpi.SheetRow+":"+cfg.SheetKeyCol+kpi.SheetRow,
        cfg, srv, &vr, 0)]++
    syncCount[writeSheetCell(&kpi, "Setting KPI value", []interface{}{out},
        cfg.SheetName+"!"+dataWeekColLetter+kpi.SheetRow+":"+dataWeekColLetter+kpi.SheetRow,
        cfg, srv, &vr, 1)]++
    syncCount[writeSheetCell(&kpi, "Setting last updated date", []interface{}{lastUpdateDate},
        cfg.SheetName+"!"+cfg.SheetLastUpdateCol+kpi.SheetRow+":"+cfg.SheetLastUpdateCol+kpi.SheetRow,
        cfg, srv, &vr, 1)]++
}
```
The three calls are unconditional: the title write is collision-checked
(`overwrite = 0`), the value and last-update writes are forced
(`overwrite = 1`) regardless of the title outcome. -/

structure LegacyCfg where
  sheetName : String
  sheetKeyCol : String
  sheetLastUpdateCol : String

def singleCell (sheet col row : String) : String :=
  sheet ++ "!" ++ col ++ row ++ ":" ++ col ++ row

structure KPIRes where
  titleCode : Nat
  valueCode : Nat
  dateCode : Nat
  writes : List String
deriving DecidableEq

def legacyKPIStep (cfg : LegacyCfg) (readCell : String → Option CellVal)
    (updateFails : String → Bool) (title sheetRow : String) (out : Int)
    (lastUpdateDate dataWeekColLetter : String) : Option KPIRes := do
  let titleCell := singleCell cfg.sheetName cfg.sheetKeyCol sheetRow
  let valueCell := singleCell cfg.sheetName dataWeekColLetter sheetRow
  let dateCell := singleCell cfg.sheetName cfg.sheetLastUpdateCol sheetRow
  let w1 ← writeSheetCell readCell updateFails (CellVal.s title) titleCell 0
  let w2 ← writeSheetCell readCell updateFails (CellVal.n out) valueCell 1
  let w3 ← writeSheetCell readCell updateFails (CellVal.s lastUpdateDate) dateCell 1
  pure ⟨w1.code, w2.code, w3.code,
    (if w1.wrote then [titleCell] else []) ++ (if w2.wrote then [valueCell] else []) ++
      (if w3.wrote then [dateCell] else [])⟩

/-- Legacy configuration and remote state used for the C1 evaluation:
the title cell S!K7:K7 currently holds "Old Title", all other cells are
empty, and every Update call succeeds. -/
def lcfg1 : LegacyCfg := ⟨"S", "K", "L"⟩

def lread1 : String → Option CellVal :=
  fun c => if c = "S!K7:K7" then some (CellVal.s "Old Title") else none

/-! ## Write retrier (src/unnamed/part_001 lines 886-910)

```go
r, _ := regexp.Compile("Error 429|operation timed out")
iterations := 12
var err error
for iterations > 0 {
    _, err = srv.Spreadsheets.Values.Update(cfg.SpreadsheetID, col, &vr).ValueInputOption("USER_ENTERED").Do()
    iterations--
    if err != nil && r.MatchString(err.Error()) {
        logit.Debug("Sleeping 10 sec")
        time.Sleep(10000 * time.Millisecond)
    } else {
        iterations = 0
    }
    if err != nil && iterations == 0 {
        logit...Fatal("Update sheet column")
    }
}
```
`r.MatchString` is an unanchored regex match: the error message contains
"Error 429" or "operation timed out" as a substring.  `script k` is the
error returned by the k-th Update attempt (`none` = success).  The
outcome records the number of attempts, the number of backoff sleeps, the
last error and whether `logit.Fatal` fired (which terminates the whole
process). -/

def startsWithChars : List Char → List Char → Bool
  | [], _ => true
  | _ :: _, [] => false
  | a :: as, b :: bs => a == b && startsWithChars as bs

def hasSubChars (pat : List Char) : List Char → Bool
  | [] => startsWithChars pat []
  | c :: rest => startsWithChars pat (c :: rest) || hasSubChars pat rest

def matchTransient (msg : String) : Bool :=
  hasSubChars "Error 429".data msg.data || hasSubChars "operation timed out".data msg.data

def isTransientFail : Option String → Bool
  | some m => matchTransient m
  | none => false

structure RetryOutcome where
  attempts : Nat
  sleeps : Nat
  result : Option String
  fatal : Bool
deriving DecidableEq

def retryGo (script : Nat → Option String) : Nat → Nat → Nat → Option String → RetryOutcome
  | 0, k, sl, e => ⟨k, sl, e, false⟩
  | it + 1, k, sl, _ =>
    match script k with
    | none => ⟨k + 1, sl, none, false⟩
    | some m =>
      if matchTransient m then
        if it = 0 then ⟨k + 1, sl + 1, some m, true⟩
        else retryGo script it (k + 1) (sl + 1) (some m)
      else ⟨k + 1, sl, some m, true⟩

def retryLoop (script : Nat → Option String) : RetryOutcome :=
  retryGo script 12 0 0 none

/-- Number of transient failures among attempts `k, k+1, ..., k+n-1`. -/
def countT (script : Nat → Option String) : Nat → Nat → Nat
  | _, 0 => 0
  | k, n + 1 => (if isTransientFail (script k) then 1 else 0) + countT script (k + 1) n

/-- The §8 write-retrier scenario: two rate-limit errors, then success. -/
def script429 : Nat → Option String :=
  fun k => if k < 2 then some "googleapi: Error 429: Quota exceeded" else none

/-! ## Coordinate cache: cellValueToSheetLetter (src/unnamed/part_001 lines 532-586)

```go
func cellValueToSheetLetter(cfg *Config, srv *sheets.Service, searchFor string, cache bool) string {
    rowToSearch := cfg.SheetName + "!" + "A" + cfg.SheetTopicRow + ":" + cfg.SheetTopicRow
    resp, err := srv.Spreadsheets.Values.Get(cfg.SpreadsheetID, rowToSearch).Do()
    if err != nil { logit...Fatal("Read col data from sheet") }
    offset := -1
    if len(resp.Values) == 0 {
        logit...Fatal("Topic not found in sheet")
    } else {
        for colCounter, topic := range resp.Values[0] {
            if cache {
                if _, ok := topicCache[fmt.Sprintf("%v", topic)]; !ok {
                    if topic != "" { topicCache[fmt.Sprintf("%v", topic)] = clmconv.Itoa(colCounter) }
                }
            }
            if searchFor == topic && offset == -1 {
                offset = colCounter
                if !cache { break }
            }
        }
    }
    if offset == -1 && !cache { logit...Fatal("FIX: Add a new column for topic") }
    return clmconv.Itoa(offset)
}
```
`rows` is the Get result for the topic-row range; the comparisons
`searchFor == topic` and `topic != ""` compare a Go string with an
`interface{}` cell, true exactly when the cell is that string; the cache
key `fmt.Sprintf("%v", topic)` is `CellVal.disp`.  `none` models the
`logit.Fatal` process exits. -/

def scanTopics (cache : Bool) (searchFor : String) :
    List CellVal → Nat → List (String × String) → Int → List (String × String) × Int
  | [], _, tc, off => (tc, off)
  | topic :: rest, cnt, tc, off =>
    let tc1 := if cache ∧ (mapGet tc topic.disp).isNone ∧ topic ≠ CellVal.s "" then
        mapSet tc topic.disp (Itoa (cnt : Int))
      else tc
    if topic = CellVal.s searchFor ∧ off = -1 then
      if cache then scanTopics cache searchFor rest (cnt + 1) tc1 (cnt : Int)
      else (tc1, (cnt : Int))
    else scanTopics cache searchFor rest (cnt + 1) tc1 off

def cellValueToSheetLetter (rows : List (List CellVal)) (searchFor : String) (cache : Bool)
    (tc : List (String × String)) : Option (List (String × String) × String) :=
  match rows with
  | [] => none
  | row0 :: _ =>
    let p := scanTopics cache searchFor row0 0 tc (-1)
    if p.2 = -1 ∧ cache = false then none
    else some (p.1, Itoa p.2)

/-! ## Coordinate cache: cellValueToSheetRow (src/unnamed/part_001 lines 588-659)

```go
func cellValueToSheetRow(SpreadsheetID string, SheetName string, SheetDataStartRow string,
    SheetKeyCol string, MatchAll string, srv *sheets.Service, searchFor string, cache bool) int {
    if cache { keyCacheMax = len(keyCache) }
    sheetDataStartRow, _ := strconv.Atoi(SheetDataStartRow)
    colToSearch := SheetName + "!" + SheetKeyCol + fmt.Sprintf("%d", sheetDataStartRow) + ":" + SheetKeyCol
    resp, err := srv.Spreadsheets.Values.Get(SpreadsheetID, colToSearch).Do()
    if err != nil { logit...Fatal("Read row data from sheet") }
    offset := -1
    if len(resp.Values) == 0 {
        logit...Fatal("No data found in col")
    } else {
        for rowCounter, row := range resp.Values {
            if cache && len(row) > 0 {
                if _, ok := keyCache[fmt.Sprintf("%v", row[0])]; !ok {
                    keyCache[fmt.Sprintf("%v", row[0])] = sheetDataStartRow + rowCounter
                    if keyCacheMax < rowCounter { keyCacheMax = rowCounter }
                }
                if MatchAll == "yes" {
                    keyCacheArr[fmt.Sprintf("%v", row[0])] = append(keyCacheArr[fmt.Sprintf("%v", row[0])], sheetDataStartRow+rowCounter)
                }
            }
            if len(row) > 0 && searchFor == row[0] && offset == -1 {
                offset = rowCounter
                if !cache { break }
            }
        }
    }
    if offset == -1 && !cache { logit...Fatal("FIX: Add a new row for key") }
    return sheetDataStartRow + offset
}
```
The three globals `keyCache`, `keyCacheArr`, `keyCacheMax` are bundled in `KS`. -/

structure KS where
  kc : List (String × Nat)
  arr : List (String × List Nat)
  mx : Nat
deriving DecidableEq

def scanKeys (start : Nat) (matchAll : String) (cache : Bool) (searchFor : String) :
    List (List CellVal) → Nat → KS → Int → KS × Int
  | [], _, st, off => (st, off)
  | row :: rest, cnt, st, off =>
    let st1 :=
      if cache ∧ row ≠ [] then
        let st1a :=
          if (mapGet st.kc (row.headD (CellVal.s "")).disp).isNone then
            { st with kc := mapSet st.kc (row.headD (CellVal.s "")).disp (start + cnt),
                      mx := if st.mx < cnt then cnt else st.mx }
          else st
        if matchAll = "yes" then
          { st1a with arr := arrApp st1a.arr (row.headD (CellVal.s "")).disp (start + cnt) }
        else st1a
      else st
    if row ≠ [] ∧ row.headD (CellVal.s "") = CellVal.s searchFor ∧ off = -1 then
      if cache then scanKeys start matchAll cache searchFor rest (cnt + 1) st1 (cnt : Int)
      else (st1, (cnt : Int))
    else scanKeys start matchAll cache searchFor rest (cnt + 1) st1 off

def cellValueToSheetRow (rows : List (List CellVal)) (sheetDataStartRow : String)
    (matchAll : String) (searchFor : String) (cache : Bool) (st : KS) : Option (KS × Int) :=
  let st0 := if cache then { st with mx := st.kc.length } else st
  let start := strconvAtoi sheetDataStartRow
  match rows with
  | [] => none
  | _ =>
    let p := scanKeys start matchAll cache searchFor rows 0 st0 (-1)
    if p.2 = -1 ∧ cache = false then none
    else some (p.1, (start : Int) + p.2)

/-! ## Value reconciler (src/unnamed/part_001 lines 725-879)

Buffer extension before the per-record loop (lines 725-745):

```go
sheetValuesLen := len(sheetValues)
if sheetValuesLen < keyCacheMax {
    newSlice := make([][]interface{}, sheetValuesLen, keyCacheMax+1)
    copy(newSlice, sheetValues)
    sheetValues = newSlice
    sheetValues = sheetValues[0 : keyCacheMax+1]
    for i := sheetValuesLen; i <= keyCacheMax; i++ { sheetValues[i] = []interface{}{""} }
}
```
-/

def extendTo (sv : List (List CellVal)) (kMax : Nat) : List (List CellVal) :=
  if sv.length < kMax then sv ++ List.replicate (kMax + 1 - sv.length) [CellVal.s ""]
  else sv

/-- One compare-and-set against a cell row (lines 764-792 main key, lines
806-833 match-all): an empty `[]interface{}` row first becomes `{""}`,
then the new value is compared with `fmt.Sprintf("%v", row[0])` and
written (as a string) only when different; the `Bool` is true when the
cell was overwritten ("Updating value") and false for the no-op branch
("NOT updating value"). -/
def cellCmpSet (row : List CellVal) (v : String) : List CellVal × Bool :=
  match row with
  | [] =>
    if v ≠ (CellVal.s "").disp then ([CellVal.s v], true) else ([CellVal.s ""], false)
  | c :: rest => if v ≠ c.disp then (CellVal.s v :: rest, true) else (c :: rest, false)

/-- Known-key branch head (lines 760-792): `scrapeNum := sheetRowNum -
sheetDataStartRow` indexes `sheetValues[scrapeNum]` directly; when the
offset is not a valid index Go panics with index-out-of-range, modelled as
`none`. -/
def knownKeyMain (sv : List (List CellVal)) (off : Nat) (v : String) :
    Option (List (List CellVal) × Bool) :=
  match sv[off]? with
  | none => none
  | some row =>
    let p := cellCmpSet row v
    some (sv.set off p.1, p.2)

/-- The match-all extension loop (lines 800-804):
`for i := len(sheetValues); i <= scrapeNum; i++ { sheetValues = append(sheetValues, []interface{}{val}); keyCacheMax = len(sheetValues) - 1 }`
runs `scrapeNum + 1 - len(sheetValues)` times, once per appended row. -/
def growLoop (v : String) : Nat → List (List CellVal) → Nat → List (List CellVal) × Nat
  | 0, sv, mx => (sv, mx)
  | n + 1, sv, _ => growLoop v n (sv ++ [[CellVal.s v]]) ((sv ++ [[CellVal.s v]]).length - 1)

def growWithVal (sv : List (List CellVal)) (target : Nat) (v : String) (mx : Nat) :
    List (List CellVal) × Nat :=
  growLoop v (target + 1 - sv.length) sv mx

/-- Match-all row loop (lines 794-836): for every cached row number of the
key, extend the buffer if needed and compare-and-set that row.  After
`growWithVal` the offset is always in range; an out-of-range index would
be a Go panic (`none`). -/
def arrLoop (v : String) (start : Nat) :
    List Nat → List (List CellVal) → Nat → Option (List (List CellVal) × Nat)
  | [], sv, mx => some (sv, mx)
  | rowNum :: rest, sv, mx =>
    let p := growWithVal sv (rowNum - start) v mx
    match p.1[rowNum - start]? with
    | none => none
    | some row =>
      let q := cellCmpSet row v
      arrLoop v start rest (p.1.set (rowNum - start) q.1) p.2

structure SVState where
  sv : List (List CellVal)
  ks : KS
deriving DecidableEq

/-- One iteration of the `gjson.ForEachLine` body of
`updateGoogleSheetValues` (lines 753-879) for a scraped `(key, val)`
record.  Returns the new state plus the main-cell "Updating value" flag,
or `none` for a Go index-out-of-range panic.

Unknown-key branch (lines 838-876):
```go
if dp.AddRows == "yes" {
    sheetValues = append(sheetValues, []interface{}{val})
    keyCacheMax = len(sheetValues) - 1
    if topicCache[dp.Title] == cfg.SheetKeyCol {
        keyCache[fmt.Sprintf("%v", val)] = sheetDataStartRow + keyCacheMax
        if dp.MatchAll == "yes" {
            keyCacheArr[fmt.Sprintf("%v", val)] = append(keyCacheArr[fmt.Sprintf("%v", val)], sheetDataStartRow+keyCacheMax)
        }
    }
} else { logit...Warning("Can not update column") }
```
-/
def recordStep (matchAll addRows colLetter cfgKeyCol : String) (start : Nat)
    (key v : String) (st : SVState) : Option (SVState × Bool) :=
  match mapGet st.ks.kc key with
  | some sheetRowNum =>
    match knownKeyMain st.sv (sheetRowNum - start) v with
    | none => none
    | some (sv1, upd) =>
      if matchAll = "yes" then
        match arrLoop v start ((mapGet st.ks.arr key).getD []) sv1 st.ks.mx with
        | none => none
        | some (sv2, mx2) => some (⟨sv2, ⟨st.ks.kc, st.ks.arr, mx2⟩⟩, upd)
      else some (⟨sv1, st.ks⟩, upd)
  | none =>
    if addRows = "yes" then
      let sv1 := st.sv ++ [[CellVal.s v]]
      let mx1 := sv1.length - 1
      if colLetter = cfgKeyCol then
        some (⟨sv1, ⟨mapSet st.ks.kc v (start + mx1),
          (if matchAll = "yes" then arrApp st.ks.arr v (start + mx1) else st.ks.arr),
          mx1⟩⟩, false)
      else some (⟨sv1, ⟨st.ks.kc, st.ks.arr, mx1⟩⟩, false)
    else some (st, false)

def recordsFold (matchAll addRows colLetter cfgKeyCol : String) (start : Nat) :
    List (String × String) → SVState → Option SVState
  | [], st => some st
  | (k, v) :: rest, st =>
    match recordStep matchAll addRows colLetter cfgKeyCol start k v st with
    | none => none
    | some (st1, _) => recordsFold matchAll addRows colLetter cfgKeyCol start rest st1

/-! ## Generic-mode run orchestrator: updateGoogleSheetValues
(src/unnamed/part_001 lines 661-913)

```go
func updateGoogleSheetValues(cfg *Config, srv *sheets.Service) {
    sheetDataStartRow, _ := strconv.Atoi(cfg.SheetDataStartRow)
    topicCache = make(map[string]string); keyCache = make(map[string]int); keyCacheArr = make(map[string][]int)
    for _, dp := range cfg.Datapoints {
        keyCol := cfg.SheetKeyCol
        if dp.KeyCol != "" { keyCol = dp.KeyCol }
        _ = cellValueToSheetLetter(cfg, srv, dp.Title, true)
        _ = cellValueToSheetRow(cfg.SpreadsheetID, cfg.SheetName, cfg.SheetDataStartRow, keyCol, dp.MatchAll, srv, "", true)
        var sheetValues [][]interface{}
        col := cfg.SheetName + "!" + topicCache[dp.Title] + cfg.SheetDataStartRow + ":" + topicCache[dp.Title]
        if len(dp.Command) > 0 {
            cmd := exec.Command(dp.Command, dp.Args)
            tmpOut, err := cmd.CombinedOutput()
            ...
            resp, err := srv.Spreadsheets.Values.Get(cfg.SpreadsheetID, col).ValueRenderOption("UNFORMATTED_VALUE").Do()
            ...
            sheetValues = resp.Values
            ... extendTo ...
            gjson.ForEachLine(json, func(line gjson.Result) bool { ... recordStep ... })
        }
        vr.Values = sheetValues
        ... retry loop (retryLoop) ...
    }
}
```
The environment supplies the remote read results (one per range string)
and, per datapoint, the parsed key/val records of its command output and
the error script of its Update attempts.  The event log records every
remote range read the run performs, tagged by call site.  `logit.Fatal`
terminates the process (`ending = fatalExit`, no further datapoint is
entered); an index-out-of-range panic is `ending = panicked`. -/

structure GCfg where
  sheetName : String
  sheetKeyCol : String
  sheetTopicRow : String
  sheetDataStartRow : String

structure DpCfg where
  title : String
  keyCol : String
  matchAll : String
  addRows : String
  hasCommand : Bool

structure DpEnv where
  records : List (String × String)
  updateScript : Nat → Option String

structure SheetEnv where
  topicRows : List (List CellVal)
  keyColRows : String → List (List CellVal)
  dataCol : String → List (List CellVal)

inductive Ev
  | readTopicRow (range : String)
  | readKeyCol (range : String)
  | readDataCol (range : String)
deriving DecidableEq

inductive RunEnd
  | finished
  | fatalExit
  | panicked
deriving DecidableEq

structure Caches where
  tc : List (String × String)
  ks : KS
deriving DecidableEq

structure RunState where
  caches : Caches
  reads : List Ev
  entered : Nat
  ending : RunEnd
deriving DecidableEq

def topicRange (cfg : GCfg) : String :=
  cfg.sheetName ++ "!A" ++ cfg.sheetTopicRow ++ ":" ++ cfg.sheetTopicRow

def keyRange (cfg : GCfg) (keyCol : String) : String :=
  cfg.sheetName ++ "!" ++ keyCol ++ toString (strconvAtoi cfg.sheetDataStartRow) ++ ":" ++ keyCol

def colRange (cfg : GCfg) (letter : String) : String :=
  cfg.sheetName ++ "!" ++ letter ++ cfg.sheetDataStartRow ++ ":" ++ letter

/-- One iteration of the datapoint loop.  The caller guarantees
`acc.ending = .finished`. -/
def stepDp (cfg : GCfg) (env : SheetEnv) (d : DpCfg × DpEnv) (acc : RunState) : RunState :=
  let dp := d.1
  let de := d.2
  let keyCol := if dp.keyCol ≠ "" then dp.keyCol else cfg.sheetKeyCol
  let start := strconvAtoi cfg.sheetDataStartRow
  let a1 : RunState := { acc with entered := acc.entered + 1,
                                  reads := acc.reads ++ [Ev.readTopicRow (topicRange cfg)] }
  match cellValueToSheetLetter env.topicRows dp.title true a1.caches.tc with
  | none => { a1 with ending := RunEnd.fatalExit }
  | some (tc1, _) =>
    let a2 : RunState := { a1 with caches := { a1.caches with tc := tc1 },
                                   reads := a1.reads ++ [Ev.readKeyCol (keyRange cfg keyCol)] }
    match cellValueToSheetRow (env.keyColRows (keyRange cfg keyCol)) cfg.sheetDataStartRow
        dp.matchAll "" true a2.caches.ks with
    | none => { a2 with ending := RunEnd.fatalExit }
    | some (ks1, _) =>
      let colLetter := (mapGet tc1 dp.title).getD ""
      let col := colRange cfg colLetter
      if dp.hasCommand then
        let a3 : RunState := { a2 with caches := ⟨tc1, ks1⟩,
                                       reads := a2.reads ++ [Ev.readDataCol col] }
        let sv0 := extendTo (env.dataCol col) ks1.mx
        match recordsFold dp.matchAll dp.addRows colLetter cfg.sheetKeyCol start
            de.records ⟨sv0, ks1⟩ with
        | none => { a3 with ending := RunEnd.panicked }
        | some stF =>
          if (retryLoop de.updateScript).fatal then
            { a3 with caches := ⟨tc1, stF.ks⟩, ending := RunEnd.fatalExit }
          else { a3 with caches := ⟨tc1, stF.ks⟩ }
      else
        if (retryLoop de.updateScript).fatal then
          { a2 with caches := ⟨tc1, ks1⟩, ending := RunEnd.fatalExit }
        else { a2 with caches := ⟨tc1, ks1⟩ }

def runLoop (cfg : GCfg) (env : SheetEnv) :
    List (DpCfg × DpEnv) → RunState → RunState
  | [], acc => acc
  | d :: rest, acc =>
    match acc.ending with
    | RunEnd.finished => runLoop cfg env rest (stepDp cfg env d acc)
    | _ => acc

def initRun : RunState := ⟨⟨[], ⟨[], [], 0⟩⟩, [], 0, RunEnd.finished⟩

def runGeneric (cfg : GCfg) (env : SheetEnv) (dps : List (DpCfg × DpEnv)) : RunState :=
  runLoop cfg env dps initRun

/-! ## Proof-side helper predicates and concrete run inputs -/

/-- A buffer cell row whose first element displays as `v`
(so a reconcile of `v` against it takes the "NOT updating value" branch). -/
def goodCell (v : String) : List CellVal → Prop
  | [] => False
  | c :: _ => c.disp = v

def goodAt (v : String) (sv : List (List CellVal)) (off : Nat) : Prop :=
  ∃ row, sv[off]? = some row ∧ goodCell v row

/-- Number of topic-row reads of the given range in an event log. -/
def countTopic (range : String) : List Ev → Nat
  | [] => 0
  | Ev.readTopicRow r :: rest => (if r = range then 1 else 0) + countTopic range rest
  | _ :: rest => countTopic range rest

/-- C3 run: key column `k1, k2` from data-start row 5 (so `keyCacheMax = 1`
after the caching pass), data column read returning a single row.  The
extension guard `len < keyCacheMax` is `1 < 1`, so no padding happens and
the record for `k2` indexes offset 1 of a 1-row buffer. -/
def cfg3 : GCfg := ⟨"S", "A", "1", "5"⟩

def dp3 : DpCfg := ⟨"DP", "", "no", "no", true⟩

def de3 : DpEnv := ⟨[("k2", "7")], fun _ => none⟩

def env3 : SheetEnv :=
  ⟨[[CellVal.s "DP"]], fun _ => [[CellVal.s "k1"], [CellVal.s "k2"]],
    fun _ => [[CellVal.s "x"]]⟩

/-- C4/C5 runs: two datapoints without a command; every remote range is
non-empty so neither resolver hits a fatal branch. -/
def dp4 : DpCfg := ⟨"D1", "", "no", "no", false⟩

def dp4b : DpCfg := ⟨"D2", "", "no", "no", false⟩

def de4 : DpEnv := ⟨[], fun _ => none⟩

def env4 : SheetEnv := ⟨[[CellVal.s "T"]], fun _ => [[CellVal.s "k1"]], fun _ => []⟩

/-- An update script whose every attempt fails with a non-transient error. -/
def de5bad : DpEnv := ⟨[], fun _ => some "permission denied"⟩

/-- C7 state: cache knows only `k1`; the record key `k9` is unknown. -/
def c7st : SVState := ⟨[[CellVal.s "x"]], ⟨[("k1", 5)], [], 0⟩⟩

/-- C9 states: before and after the first reconcile of `("k", "new")`. -/
def c9st : SVState := ⟨[[CellVal.s "old"]], ⟨[("k", 5)], [], 0⟩⟩

def c9st1 : SVState := ⟨[[CellVal.s "new"]], ⟨[("k", 5)], [], 0⟩⟩

/-! ## Theorems -/

theorem pow26_eq : ∀ n : Nat, pow26 n = 26 ^ n
  | 0 => rfl
  | 1 => by decide
  | 2 => by decide
  | 3 => by decide
  | 4 => by decide
  | 5 => by decide
  | n + 6 => by
    calc pow26 (n + 6) = pow26 (n + 5) * 26 := rfl
    _ = 26 ^ (n + 5) * 26 := by rw [pow26_eq (n + 5)]
    _ = 26 ^ (n + 6) := by rw [← pow_succ]

theorem toNat_ofNat_small (n : Nat) (h : n < 55296) : (Char.ofNat n).toNat = n := by
  have hv : n.isValidChar := Or.inl (by omega)
  rw [Char.ofNat, dif_pos hv]
  rfl

theorem itoaLoop_isSome : ∀ (fuel i c : Nat) (r : List Char), i < fuel →
    ∃ out, itoaLoop fuel i c r = some out := by
  intro fuel
  induction fuel with
  | zero => intro i c r h; omega
  | succ fuel IH =>
    intro i c r hfuel
    by_cases hb : i ≤ i % pow26 (c + 1) + 1
    · exact ⟨_, by rw [itoaLoop, if_pos hb]⟩
    · obtain ⟨out, hout⟩ := IH (i - (i % pow26 (c + 1) + 1)) (c + 1)
        (Char.ofNat ((i % pow26 (c + 1) + 1) / pow26 c + 64) :: r) (by omega)
      exact ⟨out, by rw [itoaLoop, if_neg hb]; exact hout⟩

/-- Main loop invariant for `Itoa`: starting from `i` with accumulated less
significant digits `r` (one digit per power already emitted, so
`r.length = c`) and the bijective-base-26 invariant `26 ^ c ∣ i + 1`, the
loop produces upper-case digits evaluating to `i + 1 + valAux r`. -/
theorem itoaLoop_spec : ∀ (fuel i c : Nat) (r : List Char), i < fuel →
    26 ^ c ∣ i + 1 → r.length = c → (∀ ch ∈ r, 65 ≤ ch.toNat ∧ ch.toNat ≤ 90) →
    ∃ out, itoaLoop fuel i c r = some out ∧ valAux out = (i + 1) + valAux r ∧
      (∀ ch ∈ out, 65 ≤ ch.toNat ∧ ch.toNat ≤ 90) ∧ out ≠ [] := by
  intro fuel
  induction fuel with
  | zero => intro i c r h; omega
  | succ fuel IH =>
    intro i c r hfuel hdvd hlen hgood
    have hp : 0 < 26 ^ (c + 1) := Nat.pos_pow_of_pos _ (by omega)
    have hpc : 0 < 26 ^ c := Nat.pos_pow_of_pos _ (by omega)
    have hmd := Nat.mod_add_div i (26 ^ (c + 1))
    have htlt : i % 26 ^ (c + 1) < 26 ^ (c + 1) := Nat.mod_lt _ hp
    rw [itoaLoop]
    simp only [pow26_eq]
    by_cases hb : i ≤ i % 26 ^ (c + 1) + 1
    · rw [if_pos hb]
      -- on exit, i < 26^(c+1), so the final mod is i itself
      have hp26 : 26 ≤ 26 ^ (c + 1) := by
        calc (26 : Nat) = 26 ^ 1 := by norm_num
        _ ≤ 26 ^ (c + 1) := Nat.pow_le_pow_right (by omega) (by omega)
      have hilt : i < 26 ^ (c + 1) := by
        rcases Nat.eq_zero_or_pos (i / 26 ^ (c + 1)) with hq | hq
        · rw [hq, Nat.mul_zero, Nat.add_zero] at hmd
          omega
        · exfalso
          have hle := Nat.le_mul_of_pos_right (26 ^ (c + 1)) hq
          omega
      have htei : i % 26 ^ (c + 1) = i := Nat.mod_eq_of_lt hilt
      rw [htei]
      have hle : 26 ^ c ≤ i + 1 := Nat.le_of_dvd (by omega) hdvd
      have hdle : (i + 1) / 26 ^ c ≤ 26 := by
        have h1 : (i + 1) / 26 ^ c ≤ 26 ^ c * 26 / 26 ^ c := by
          apply Nat.div_le_div_right
          have : 26 ^ (c + 1) = 26 ^ c * 26 := by rw [pow_succ]
          omega
        rwa [Nat.mul_div_cancel_left 26 hpc] at h1
      have hd1 : 1 ≤ (i + 1) / 26 ^ c := (Nat.one_le_div_iff hpc).2 hle
      have hch : (Char.ofNat ((i + 1) / 26 ^ c + 64)).toNat = (i + 1) / 26 ^ c + 64 :=
        toNat_ofNat_small _ (by omega)
      refine ⟨_, rfl, ?_, ?_, by simp⟩
      · show valAux (_ :: r) = _
        rw [valAux, hch, hlen]
        have : ((i + 1) / 26 ^ c + 64 - 64) = (i + 1) / 26 ^ c := by omega
        rw [this, Nat.div_mul_cancel hdvd]
      · intro ch hch'
        rcases List.mem_cons.1 hch' with h | h
        · subst h; omega
        · exact hgood ch h
    · rw [if_neg hb]
      -- invariant pushing: 26^c divides mod+1, the emitted digit is in 1..26
      have h1 : (26 : Nat) ^ c ∣ 26 ^ (c + 1) := pow_dvd_pow 26 (by omega)
      have h2 : 26 ^ c ∣ i - i % 26 ^ (c + 1) := by
        have : i - i % 26 ^ (c + 1) = 26 ^ (c + 1) * (i / 26 ^ (c + 1)) := by omega
        rw [this]
        exact h1.trans (dvd_mul_right _ _)
      have hdvdm : 26 ^ c ∣ i % 26 ^ (c + 1) + 1 := by
        have h3 := Nat.dvd_sub' hdvd h2
        have : i + 1 - (i - i % 26 ^ (c + 1)) = i % 26 ^ (c + 1) + 1 := by omega
        rwa [this] at h3
      have hdmul : (i % 26 ^ (c + 1) + 1) / 26 ^ c * 26 ^ c = i % 26 ^ (c + 1) + 1 :=
        Nat.div_mul_cancel hdvdm
      have hmle : 26 ^ c ≤ i % 26 ^ (c + 1) + 1 := Nat.le_of_dvd (by omega) hdvdm
      have hdle : (i % 26 ^ (c + 1) + 1) / 26 ^ c ≤ 26 := by
        have h4 : (i % 26 ^ (c + 1) + 1) / 26 ^ c ≤ 26 ^ c * 26 / 26 ^ c := by
          apply Nat.div_le_div_right
          have : 26 ^ (c + 1) = 26 ^ c * 26 := by rw [pow_succ]
          omega
        rwa [Nat.mul_div_cancel_left 26 hpc] at h4
      have hd1 : 1 ≤ (i % 26 ^ (c + 1) + 1) / 26 ^ c := (Nat.one_le_div_iff hpc).2 hmle
      have hch : (Char.ofNat ((i % 26 ^ (c + 1) + 1) / 26 ^ c + 64)).toNat
          = (i % 26 ^ (c + 1) + 1) / 26 ^ c + 64 := toNat_ofNat_small _ (by omega)
      have hdvd' : 26 ^ (c + 1) ∣ (i - (i % 26 ^ (c + 1) + 1)) + 1 := by
        have : (i - (i % 26 ^ (c + 1) + 1)) + 1 = 26 ^ (c + 1) * (i / 26 ^ (c + 1)) := by
          omega
        rw [this]
        exact dvd_mul_right _ _
      have hgood' : ∀ ch ∈ (Char.ofNat ((i % 26 ^ (c + 1) + 1) / 26 ^ c + 64) :: r),
          65 ≤ ch.toNat ∧ ch.toNat ≤ 90 := by
        intro ch hm
        rcases List.mem_cons.1 hm with h | h
        · subst h; omega
        · exact hgood ch h
      obtain ⟨out, hout, hval, hg, hne⟩ := IH (i - (i % 26 ^ (c + 1) + 1)) (c + 1)
        (Char.ofNat ((i % 26 ^ (c + 1) + 1) / 26 ^ c + 64) :: r)
        (by omega) hdvd' (by simp [hlen]) hgood'
      refine ⟨out, by rw [← pow26_eq] at hout ⊢; exact hout, ?_, hg, hne⟩
      rw [hval, valAux, hch, hlen]
      have h5 : ((i % 26 ^ (c + 1) + 1) / 26 ^ c + 64 - 64) = (i % 26 ^ (c + 1) + 1) / 26 ^ c := by
        omega
      rw [h5, hdmul]
      omega

theorem atoiAux_ok : ∀ l : List Char, (∀ ch ∈ l, 65 ≤ ch.toNat ∧ ch.toNat ≤ 90) →
    atoiAux l = Except.ok ((valAux l : Nat) : Int)
  | [], _ => by simp [atoiAux, valAux]
  | c :: rest, h => by
    have hc := h c (List.mem_cons_self ..)
    have hrest := atoiAux_ok rest (fun ch hm => h ch (List.mem_cons_of_mem _ hm))
    rw [atoiAux, if_pos ⟨hc.1, hc.2⟩, hrest]
    have h64 : 64 ≤ c.toNat := by omega
    rw [valAux]
    push_cast [pow26_eq, Nat.cast_sub h64]
    ring_nf

theorem pow26F_neg : ∀ (fuel : Nat) (n : Int), n < 0 → pow26F fuel n = none := by
  intro fuel
  induction fuel with
  | zero => intro n _; rfl
  | succ fuel IH =>
    intro n hn
    rw [pow26F, if_neg (by omega), IH (n - 1) (by omega)]

theorem pow26F_ok : ∀ m : Nat, pow26F (m + 1) (m : Int) = some ((pow26 m : Nat) : Int) := by
  intro m
  induction m using Nat.strong_induction_on with
  | _ m IH =>
    by_cases hm : m ≤ 5
    · interval_cases m <;> rfl
    · obtain ⟨k, rfl⟩ : ∃ k, m = k + 1 := ⟨m - 1, by omega⟩
      rw [pow26F, if_neg (by omega)]
      have h2 : ((k + 1 : Nat) : Int) - 1 = (k : Int) := by push_cast; ring
      rw [h2, IH k (by omega)]
      have h4 : pow26 (k + 1) = pow26 k * 26 := by
        rw [pow26_eq, pow26_eq, pow_succ]
      simp only [h4]
      push_cast
      ring_nf

/-- C8: For every integer n with 0 <= n < 18278, Atoi(Itoa(n)) = n, and
Itoa(n) is a non-empty string matching ^[A-Z]+$ (every character has a code
point between 65 = 'A' and 90 = 'Z'), with Itoa(0) = "A".  (The round trip
in fact holds for every non-negative n; the claim's bound 18278 is kept as
a hypothesis.) -/
theorem C8_codec_roundtrip (n : Int) (h0 : 0 ≤ n) (h1 : n < 18278) :
    Atoi (Itoa n) = Except.ok n ∧ Itoa n ≠ "" ∧
    (∀ ch ∈ (Itoa n).data, 65 ≤ ch.toNat ∧ ch.toNat ≤ 90) ∧ Itoa 0 = "A" := by
  obtain ⟨out, hout, hval, hgood, hne⟩ :=
    itoaLoop_spec (n.toNat + 1) n.toNat 0 [] (by omega) (by simp) rfl (by simp)
  have hItoa : Itoa n = String.mk out := by
    unfold Itoa
    rw [if_neg (by omega), hout]
  have hdata : (Itoa n).data = out := by rw [hItoa]
  have hne' : Itoa n ≠ "" := by
    rw [hItoa]
    intro hcon
    apply hne
    have : (String.mk out).data = ("" : String).data := by rw [hcon]
    simpa using this
  refine ⟨?_, hne', ?_, rfl⟩
  · unfold Atoi
    rw [if_neg hne']
    rw [hdata, atoiAux_ok out hgood, hval]
    have hv0 : valAux [] = 0 := rfl
    have heq : ((n.toNat + 1 + valAux [] : Nat) : Int) - 1 = n := by
      rw [hv0]
      push_cast
      omega
    show Except.ok (((n.toNat + 1 + valAux [] : Nat) : Int) - 1) = Except.ok n
    rw [heq]
  · rw [hdata]
    exact hgood

theorem C8_codec_roundtrip_witness : Atoi (Itoa 27) = Except.ok 27 :=
  (C8_codec_roundtrip 27 (by decide) (by decide)).1

/-- C10: Itoa terminates on every integer input: a negative input returns
the empty string immediately, and on a non-negative input every loop
iteration subtracts `mod = i % pow26(c+1) + 1 ≥ 1` from `i`, so `i + 1`
iterations of fuel always make the loop finish (the fuel-limited loop
returns `some`).  Every call to pow26 made by Atoi and Itoa passes a
non-negative argument (the embeddings call it on `Nat`), and on
non-negative arguments the fuel-limited Go recursion `pow26F` terminates
with the expected value, while on a negative argument it runs out of any
amount of fuel. -/
theorem C10_itoa_terminates :
    (∀ i : Int, i < 0 → Itoa i = "")
    ∧ (∀ (i c : Nat) (r : List Char), (itoaLoop (i + 1) i c r).isSome = true)
    ∧ (∀ n : Int, 0 ≤ n → pow26F (n.toNat + 1) n = some ((pow26 n.toNat : Nat) : Int))
    ∧ (∀ (fuel : Nat) (n : Int), n < 0 → pow26F fuel n = none) := by
  refine ⟨?_, ?_, ?_, pow26F_neg⟩
  · intro i hi
    unfold Itoa
    rw [if_pos hi]
  · intro i c r
    obtain ⟨out, hout⟩ := itoaLoop_isSome (i + 1) i c r (by omega)
    rw [hout]
    rfl
  · intro n hn
    have h1 : n = ((n.toNat : Nat) : Int) := by omega
    rw [h1]
    rw [Int.toNat_ofNat]
    exact pow26F_ok n.toNat

theorem C10_itoa_terminates_witness :
    Itoa (-2) = "" ∧ pow26F ((3 : Int).toNat + 1) 3 = some ((pow26 (3 : Int).toNat : Nat) : Int) :=
  ⟨C10_itoa_terminates.1 (-2) (by decide), C10_itoa_terminates.2.2.1 3 (by decide)⟩

/-- C1: claim says that on a legacy title collision (existing title cell
non-empty and different from the new title) the whole row update is
withheld: neither the value cell nor the last-update cell is written.  The
code records the collision for the title cell but still performs both the
value write and the last-update write (`overwrite = 1` skips the check):
at the failing input below the returned write list contains the value cell
S!F7:F7 and the date cell S!L7:L7. -/
theorem C1_title_collision_still_writes :
    legacyKPIStep lcfg1 lread1 (fun _ => false) "New Title" "7" 42 "2026-10-12" "F"
      = some ⟨errCode "collision", errCode "failed", errCode "failed", ["S!F7:F7", "S!L7:L7"]⟩
    ∧ errCode "collision" = 2 := by
  constructor
  · rfl
  · rfl

/-- C2: claim says a legacy title write into an empty title cell proceeds
and is recorded as `synced` (code 1).  The write does proceed
(`wrote = true`), but the success path of `writeSheetCell` returns
`errorCode["failed"]` = 3 (the `errorCode["synced"]` return is dead code
behind `logit.Fatal`), so the recorded outcome is `failed`, not `synced`. -/
theorem C2_success_path_returns_failed_code :
    writeSheetCell (fun _ => none) (fun _ => false) (CellVal.s "X") "S!K7:K7" 0
      = some ⟨errCode "failed", true⟩
    ∧ errCode "failed" = 3 ∧ errCode "synced" = 1 := by
  exact ⟨rfl, rfl, rfl⟩

theorem retryGo_spec (script : Nat → Option String) : ∀ (it k sl : Nat) (e : Option String),
    1 ≤ it →
    k < (retryGo script it k sl e).attempts
    ∧ (retryGo script it k sl e).attempts ≤ k + it
    ∧ (∀ j, k ≤ j → j + 1 < (retryGo script it k sl e).attempts →
        isTransientFail (script j) = true)
    ∧ (retryGo script it k sl e).sleeps
        = sl + countT script k ((retryGo script it k sl e).attempts - k)
    ∧ (isTransientFail (script k) = false → (retryGo script it k sl e).attempts = k + 1) := by
  intro it
  induction it with
  | zero => intro k sl e h; omega
  | succ it IH =>
    intro k sl e _
    match hsk : script k with
    | none =>
      have hT : isTransientFail (script k) = false := by rw [hsk]; rfl
      have hre : retryGo script (it + 1) k sl e = ⟨k + 1, sl, none, false⟩ := by
        rw [retryGo, hsk]
      rw [hre]
      refine ⟨Nat.lt_succ_self k, ?_, ?_, ?_, fun _ => rfl⟩
      · show k + 1 ≤ k + (it + 1)
        omega
      · intro j hj hj2
        exfalso
        simp at hj2
        omega
      · have h2 : k + 1 - k = 1 := by omega
        show sl = sl + countT script k (k + 1 - k)
        simp only [h2, countT, hT]
        simp
    | some m =>
      by_cases hm : matchTransient m
      · have hT : isTransientFail (script k) = true := by
          rw [hsk]
          simpa [isTransientFail]
        by_cases hit : it = 0
        · have hre : retryGo script (it + 1) k sl e = ⟨k + 1, sl + 1, some m, true⟩ := by
            rw [retryGo, hsk]
            simp [hm, hit]
          rw [hre]
          refine ⟨Nat.lt_succ_self k, ?_, ?_, ?_, ?_⟩
          · show k + 1 ≤ k + (it + 1)
            omega
          · intro j hj hj2
            exfalso
            simp at hj2
            omega
          · have h2 : k + 1 - k = 1 := by omega
            show sl + 1 = sl + countT script k (k + 1 - k)
            simp only [h2, countT, hT]
            simp
          · intro hc
            simp [isTransientFail, hm] at hc
        · have h1 : 1 ≤ it := by omega
          obtain ⟨ih1, ih2, ih3, ih4, _⟩ := IH (k + 1) (sl + 1) (some m) h1
          have hre : retryGo script (it + 1) k sl e
              = retryGo script it (k + 1) (sl + 1) (some m) := by
            rw [retryGo, hsk]
            simp [hm, hit]
          rw [hre]
          refine ⟨by omega, by omega, ?_, ?_, ?_⟩
          · intro j hj hj2
            by_cases hjk : j = k
            · subst hjk; exact hT
            · exact ih3 j (by omega) hj2
          · rw [ih4]
            have h2 : (retryGo script it (k + 1) (sl + 1) (some m)).attempts - k
                = ((retryGo script it (k + 1) (sl + 1) (some m)).attempts - (k + 1)) + 1 := by
              omega
            rw [h2, countT]
            simp only [hT]
            simp
            omega
          · intro hc
            simp [isTransientFail, hm] at hc
      · have hT : isTransientFail (script k) = false := by
          rw [hsk]
          simpa [isTransientFail] using hm
        have hre : retryGo script (it + 1) k sl e = ⟨k + 1, sl, some m, true⟩ := by
          rw [retryGo, hsk]
          simp [hm]
        rw [hre]
        refine ⟨Nat.lt_succ_self k, ?_, ?_, ?_, fun _ => rfl⟩
        · show k + 1 ≤ k + (it + 1)
          omega
        · intro j hj hj2
          exfalso
          simp at hj2
          omega
        · have h2 : k + 1 - k = 1 := by omega
          show sl = sl + countT script k (k + 1 - k)
          simp only [h2, countT, hT]
          simp

/-- C6: the write retrier attempts the range update at most 12 times; every
attempt before the last one returned a transient error (so a retry happens
only after an error matching "Error 429" / "operation timed out", each
retry preceded by one recorded 10 s sleep: the sleep counter equals the
number of transient failures among the attempts made); it stops right
after an attempt that succeeds or returns a non-matching error; and in the
§8 scenario (two 429s, then success) it makes exactly 3 attempts, 2 sleeps
and succeeds without the fatal path. -/
theorem C6_retry_bound (script : Nat → Option String) :
    (retryLoop script).attempts ≤ 12
    ∧ 1 ≤ (retryLoop script).attempts
    ∧ (∀ j, j + 1 < (retryLoop script).attempts → isTransientFail (script j) = true)
    ∧ (retryLoop script).sleeps = countT script 0 (retryLoop script).attempts
    ∧ (∀ j, j < (retryLoop script).attempts → isTransientFail (script j) = false →
        (retryLoop script).attempts = j + 1)
    ∧ retryLoop script429 = ⟨3, 2, none, false⟩ := by
  obtain ⟨h1, h2, h3, h4, _⟩ := retryGo_spec script 12 0 0 none (by omega)
  refine ⟨h2, h1, fun j hj => h3 j (by omega) hj, by simpa using h4, ?_, by decide⟩
  intro j hj hf
  by_contra hne
  have : j + 1 < (retryLoop script).attempts := by omega
  have := h3 j (by omega) this
  rw [hf] at this
  exact absurd this (by simp)

theorem C6_retry_bound_witness :
    (retryLoop script429).attempts ≤ 12 ∧ isTransientFail (script429 0) = true :=
  ⟨(C6_retry_bound script429).1, (C6_retry_bound script429).2.2.1 0 (by decide)⟩

/-- C3: claim says the buffer is always padded up to and including the
cached offset before it is indexed, so indexing never goes out of bounds.
The extension code only fires when `len(sheetValues) < keyCacheMax`, so a
buffer of length exactly `keyCacheMax` is left unpadded while offsets up
to `keyCacheMax` are indexed: the concrete run below reaches
`sheetValues[1]` on a buffer of length 1 and panics. -/
theorem C3_padding_off_by_one_panics :
    (runGeneric cfg3 env3 [(dp3, de3)]).ending = RunEnd.panicked
    ∧ extendTo [[CellVal.s "x"]] 1 = [[CellVal.s "x"]]
    ∧ knownKeyMain [[CellVal.s "x"]] 1 "7" = none := by
  exact ⟨rfl, rfl, rfl⟩

theorem mapGet_set_self {α : Type} : ∀ (m : List (String × α)) (k : String) (v : α),
    mapGet (mapSet m k v) k = some v
  | [], k, v => by simp [mapSet, mapGet]
  | (k', v') :: rest, k, v => by
    by_cases h : k' = k
    · simp [mapSet, mapGet, h]
    · simp only [mapSet, if_neg h, mapGet]
      exact mapGet_set_self rest k v

/-- C7 counterexample: unknown key `k9`, `AddRows = yes`, and the updated
column letter "B" differs from the configured key column "A".  The value
is appended and the max-row tracker moves to 1, but the Key-to-Row Cache
does not gain a mapping for the record's key `k9` (the code only touches
`keyCache` when the updated column is the key column, and then keys the
entry by the appended value, not by the record key). -/
theorem C7_cex :
    recordStep "no" "yes" "B" "A" 5 "k9" "9" c7st
      = some (⟨[[CellVal.s "x"], [CellVal.s "9"]], ⟨[("k1", 5)], [], 1⟩⟩, false)
    ∧ mapGet (⟨[("k1", 5)], [], 1⟩ : KS).kc "k9" = none := by
  exact ⟨rfl, rfl⟩

/-- C7 amended: for an unknown key with row-append enabled, the value is
appended as a new cell at the end of the column buffer and the max-row
tracker becomes the new last buffer offset; the Key-to-Row Cache (and the
multi-row cache under match-all) gains an entry only when the updated
column is the configured key column, and that entry maps the appended
value to the new row number. -/
theorem C7_append_updates_buffer_and_max (matchAll colLetter cfgKeyCol : String)
    (start : Nat) (key v : String) (st : SVState)
    (hk : mapGet st.ks.kc key = none) :
    recordStep matchAll "yes" colLetter cfgKeyCol start key v st
      = some (⟨st.sv ++ [[CellVal.s v]],
          ⟨(if colLetter = cfgKeyCol then mapSet st.ks.kc v (start + st.sv.length)
            else st.ks.kc),
           (if colLetter = cfgKeyCol ∧ matchAll = "yes" then
              arrApp st.ks.arr v (start + st.sv.length)
            else st.ks.arr),
           st.sv.length⟩⟩, false)
    ∧ (colLetter = cfgKeyCol →
        mapGet (mapSet st.ks.kc v (start + st.sv.length)) v
          = some (start + st.sv.length)) := by
  constructor
  · by_cases hcl : colLetter = cfgKeyCol
    · simp [recordStep, hk, hcl]
    · simp [recordStep, hk, hcl]
  · intro _
    exact mapGet_set_self st.ks.kc v (start + st.sv.length)

theorem C7_append_updates_buffer_and_max_witness :
    recordStep "no" "yes" "B" "A" 5 "k9" "9" c7st
      = some (⟨c7st.sv ++ [[CellVal.s "9"]],
          ⟨(if "B" = "A" then mapSet c7st.ks.kc "9" (5 + c7st.sv.length)
            else c7st.ks.kc),
           (if "B" = "A" ∧ "no" = "yes" then
              arrApp c7st.ks.arr "9" (5 + c7st.sv.length)
            else c7st.ks.arr),
           c7st.sv.length⟩⟩, false) :=
  (C7_append_updates_buffer_and_max "no" "B" "A" 5 "k9" "9" c7st rfl).1

/-- C4 counterexample: a run over two datapoints.  `cellValueToSheetLetter`
performs its remote read of the topic-row range unconditionally on every
invocation, and the orchestrator invokes it once per datapoint, so the
same range is read twice in one run — the claim's "at most one remote
read per (sheet, range)" fails as soon as more than one datapoint is
configured. -/
theorem C4_cex :
    ¬ (countTopic (topicRange cfg3) (runGeneric cfg3 env4 [(dp4, de4), (dp4b, de4)]).reads ≤ 1) := by
  decide

theorem countTopic_append (range : String) : ∀ l1 l2 : List Ev,
    countTopic range (l1 ++ l2) = countTopic range l1 + countTopic range l2 := by
  intro l1
  induction l1 with
  | nil => intro l2; simp [countTopic]
  | cons e rest IH =>
    intro l2
    cases e <;> simp [countTopic, IH] <;> omega

theorem stepDp_topic_count (cfg : GCfg) (env : SheetEnv) (d : DpCfg × DpEnv)
    (acc : RunState) :
    countTopic (topicRange cfg) (stepDp cfg env d acc).reads
      = countTopic (topicRange cfg) acc.reads + 1 := by
  unfold stepDp
  dsimp only
  (repeat' split) <;> simp [countTopic_append, countTopic]

theorem stepDp_entered (cfg : GCfg) (env : SheetEnv) (d : DpCfg × DpEnv)
    (acc : RunState) :
    (stepDp cfg env d acc).entered = acc.entered + 1 := by
  unfold stepDp
  dsimp only
  (repeat' split) <;> rfl

theorem runLoop_stuck (cfg : GCfg) (env : SheetEnv) : ∀ (dps : List (DpCfg × DpEnv))
    (acc : RunState), acc.ending ≠ RunEnd.finished → runLoop cfg env dps acc = acc := by
  intro dps
  cases dps with
  | nil => intro acc _; rfl
  | cons d rest =>
    intro acc h
    rw [runLoop]
    cases hacc : acc.ending with
    | finished => exact absurd hacc h
    | fatalExit => rfl
    | panicked => rfl

theorem runLoop_topic_count (cfg : GCfg) (env : SheetEnv) : ∀ (dps : List (DpCfg × DpEnv))
    (acc : RunState), (runLoop cfg env dps acc).ending = RunEnd.finished →
    acc.ending = RunEnd.finished ∧
    countTopic (topicRange cfg) (runLoop cfg env dps acc).reads
      = countTopic (topicRange cfg) acc.reads + dps.length := by
  intro dps
  induction dps with
  | nil => intro acc h; exact ⟨h, by simp [runLoop]⟩
  | cons d rest IH =>
    intro acc h
    by_cases ha : acc.ending = RunEnd.finished
    · have hstep : runLoop cfg env (d :: rest) acc
          = runLoop cfg env rest (stepDp cfg env d acc) := by
        rw [runLoop, ha]
      rw [hstep] at h ⊢
      obtain ⟨h1, h2⟩ := IH (stepDp cfg env d acc) h
      refine ⟨ha, ?_⟩
      rw [h2, stepDp_topic_count]
      simp [List.length_cons]
      omega
    · rw [runLoop_stuck cfg env _ acc ha] at h
      exact absurd h ha

/-- C4 amended: each resolver issues one remote read of its range on every
invocation, and the orchestrator invokes the resolvers once per datapoint
— so a run that finishes normally has read the header topic-row range
exactly once per datapoint (k reads for k datapoints), not at most once
per run.  (The key-column resolver re-reads its range the same way, one
`readKeyCol` event per datapoint.) -/
theorem C4_resolver_reads_once_per_datapoint (cfg : GCfg) (env : SheetEnv)
    (dps : List (DpCfg × DpEnv))
    (h : (runGeneric cfg env dps).ending = RunEnd.finished) :
    countTopic (topicRange cfg) (runGeneric cfg env dps).reads = dps.length := by
  have h2 := (runLoop_topic_count cfg env dps initRun h).2
  rw [runGeneric] at *
  rw [h2]
  simp [initRun, countTopic]

theorem C4_resolver_reads_once_per_datapoint_witness :
    countTopic (topicRange cfg3) (runGeneric cfg3 env4 [(dp4, de4)]).reads = 1 :=
  C4_resolver_reads_once_per_datapoint cfg3 env4 [(dp4, de4)] (by decide)

/-- C5 counterexample: two datapoints; the first datapoint's range update
fails with a non-transient error ("permission denied").  The claim says
the failure is fatal only for that datapoint's write and the orchestrator
continues to the next datapoint; in the code the retry loop calls
`logit.Fatal`, which terminates the whole process: the run ends in
`fatalExit` having entered only 1 of the 2 datapoints. -/
theorem C5_cex :
    (runGeneric cfg3 env4 [(dp4, de5bad), (dp4b, de4)]).entered = 1
    ∧ (runGeneric cfg3 env4 [(dp4, de5bad), (dp4b, de4)]).ending = RunEnd.fatalExit
    ∧ ¬ ((runGeneric cfg3 env4 [(dp4, de5bad), (dp4b, de4)]).entered = 2) := by
  exact ⟨rfl, rfl, by decide⟩

/-- C5 amended: when a datapoint's processing ends in `logit.Fatal` (a
non-transient update error, or twelve failed attempts) or in a panic, the
whole process stops: however many datapoints remain after it, none is
entered — the run over `d :: rest` enters exactly the one datapoint and
keeps the fatal ending. -/
theorem C5_write_failure_aborts_process (cfg : GCfg) (env : SheetEnv)
    (d : DpCfg × DpEnv) (rest : List (DpCfg × DpEnv))
    (h : (stepDp cfg env d initRun).ending ≠ RunEnd.finished) :
    (runGeneric cfg env (d :: rest)).entered = 1
    ∧ (runGeneric cfg env (d :: rest)).ending = (stepDp cfg env d initRun).ending := by
  have h1 : runGeneric cfg env (d :: rest) = stepDp cfg env d initRun := by
    rw [runGeneric, runLoop]
    exact runLoop_stuck cfg env rest (stepDp cfg env d initRun) h
  rw [h1, stepDp_entered]
  exact ⟨rfl, rfl⟩

theorem C5_write_failure_aborts_process_witness :
    (runGeneric cfg3 env4 [(dp4, de5bad), (dp4b, de4)]).entered = 1 :=
  (C5_write_failure_aborts_process cfg3 env4 (dp4, de5bad) [(dp4b, de4)] (by decide)).1

theorem set_self_of_getElem? {α : Type} : ∀ (l : List α) (n : Nat) (a : α),
    l[n]? = some a → l.set n a = l
  | [], _, _, h => by simp at h
  | b :: t, 0, a, h => by
    simp at h
    simp [List.set, h]
  | b :: t, n + 1, a, h => by
    simp at h
    simp [List.set]
    exact set_self_of_getElem? t n a h

theorem lt_of_getElem?_some {α : Type} : ∀ (l : List α) (n : Nat) (a : α),
    l[n]? = some a → n < l.length
  | [], n, a, h => by simp at h
  | b :: t, 0, a, _ => by simp
  | b :: t, n + 1, a, h => by
    simp only [List.getElem?_cons_succ] at h
    have := lt_of_getElem?_some t n a h
    simp only [List.length_cons]
    omega

theorem cellCmpSet_fst_good (row : List CellVal) (v : String) :
    goodCell v (cellCmpSet row v).1 := by
  cases row with
  | nil =>
    simp only [cellCmpSet]
    split
    · rfl
    · rename_i h
      exact (not_not.mp h).symm
  | cons c rest =>
    simp only [cellCmpSet]
    split
    · rfl
    · rename_i h
      exact (not_not.mp h).symm

theorem cellCmpSet_eq_of_good (row : List CellVal) (v : String) (h : goodCell v row) :
    cellCmpSet row v = (row, false) := by
  cases row with
  | nil => exact absurd h (by simp [goodCell])
  | cons c rest =>
    have hc : c.disp = v := h
    simp [cellCmpSet, hc]

theorem knownKeyMain_eq (sv : List (List CellVal)) (off : Nat) (v : String)
    (row : List CellVal) (h : sv[off]? = some row) :
    knownKeyMain sv off v
      = some (sv.set off (cellCmpSet row v).1, (cellCmpSet row v).2) := by
  simp [knownKeyMain, h]

theorem knownKeyMain_id (sv : List (List CellVal)) (off : Nat) (v : String)
    (h : goodAt v sv off) : knownKeyMain sv off v = some (sv, false) := by
  obtain ⟨row, h1, h2⟩ := h
  rw [knownKeyMain_eq sv off v row h1, cellCmpSet_eq_of_good row v h2,
    set_self_of_getElem? sv off row h1]

theorem knownKeyMain_good (sv : List (List CellVal)) (off : Nat) (v : String)
    (sv1 : List (List CellVal)) (b : Bool)
    (h : knownKeyMain sv off v = some (sv1, b)) :
    sv1.length = sv.length ∧ goodAt v sv1 off := by
  cases hoff : sv[off]? with
  | none => rw [knownKeyMain, hoff] at h; simp at h
  | some row =>
    rw [knownKeyMain_eq sv off v row hoff] at h
    simp at h
    obtain ⟨hsv, _⟩ := h
    subst hsv
    have hlt := lt_of_getElem?_some sv off row hoff
    refine ⟨List.length_set .., (cellCmpSet row v).1, ?_, cellCmpSet_fst_good row v⟩
    simp [List.getElem?_set_self, hlt]

theorem growLoop_spec (v : String) : ∀ (n : Nat) (sv : List (List CellVal)) (mx : Nat),
    (growLoop v n sv mx).1 = sv ++ List.replicate n [CellVal.s v]
    ∧ (growLoop v n sv mx).2 = (if n = 0 then mx else sv.length + n - 1) := by
  intro n
  induction n with
  | zero => intro sv mx; simp [growLoop]
  | succ n IH =>
    intro sv mx
    obtain ⟨ih1, ih2⟩ := IH (sv ++ [[CellVal.s v]]) ((sv ++ [[CellVal.s v]]).length - 1)
    constructor
    · show (growLoop v n (sv ++ [[CellVal.s v]]) ((sv ++ [[CellVal.s v]]).length - 1)).1 = _
      rw [ih1]
      simp [List.replicate_succ]
    · show (growLoop v n (sv ++ [[CellVal.s v]]) ((sv ++ [[CellVal.s v]]).length - 1)).2 = _
      rw [ih2]
      by_cases hn : n = 0
      · simp [hn, List.length_append]
      · rw [if_neg hn, if_neg (by omega : ¬ n + 1 = 0)]
        simp only [List.length_append, List.length_cons, List.length_nil]
        omega

theorem growWithVal_fst (sv : List (List CellVal)) (target : Nat) (v : String) (mx : Nat) :
    (growWithVal sv target v mx).1
      = sv ++ List.replicate (target + 1 - sv.length) [CellVal.s v] :=
  (growLoop_spec v _ sv mx).1

theorem growWithVal_length (sv : List (List CellVal)) (target : Nat) (v : String) (mx : Nat) :
    (growWithVal sv target v mx).1.length = max sv.length (target + 1) := by
  rw [growWithVal_fst]
  simp [List.length_append]
  omega

theorem growWithVal_target_lt (sv : List (List CellVal)) (target : Nat) (v : String) (mx : Nat) :
    target < (growWithVal sv target v mx).1.length := by
  rw [growWithVal_length]
  omega

theorem growWithVal_front (sv : List (List CellVal)) (target : Nat) (v : String) (mx : Nat)
    (p : Nat) (hp : p < sv.length) :
    (growWithVal sv target v mx).1[p]? = sv[p]? := by
  rw [growWithVal_fst]
  simp [List.getElem?_append, hp]

theorem growWithVal_of_lt (sv : List (List CellVal)) (target : Nat) (v : String) (mx : Nat)
    (h : target < sv.length) : growWithVal sv target v mx = (sv, mx) := by
  unfold growWithVal
  have h0 : target + 1 - sv.length = 0 := by omega
  rw [h0]
  rfl

theorem growWithVal_preserves_goodAt (w : String) (sv : List (List CellVal)) (target : Nat)
    (v : String) (mx : Nat) (off : Nat) (h : goodAt w sv off) :
    goodAt w (growWithVal sv target v mx).1 off := by
  obtain ⟨row, h1, h2⟩ := h
  have hlt := lt_of_getElem?_some sv off row h1
  exact ⟨row, by rw [growWithVal_front sv target v mx off hlt]; exact h1, h2⟩

theorem arrLoop_estab (v : String) (start : Nat) : ∀ (l : List Nat)
    (sv : List (List CellVal)) (mx : Nat),
    ∃ sv' mx', arrLoop v start l sv mx = some (sv', mx')
      ∧ sv.length ≤ sv'.length
      ∧ (∀ off, goodAt v sv off → goodAt v sv' off)
      ∧ (∀ rn ∈ l, goodAt v sv' (rn - start)) := by
  intro l
  induction l with
  | nil =>
    intro sv mx
    exact ⟨sv, mx, rfl, Nat.le_refl _, fun _ h => h, by simp⟩
  | cons rn rest IH =>
    intro sv mx
    have hlen1 : rn - start < (growWithVal sv (rn - start) v mx).1.length :=
      growWithVal_target_lt sv (rn - start) v mx
    obtain ⟨row, hrow⟩ : ∃ row, (growWithVal sv (rn - start) v mx).1[rn - start]? = some row :=
      ⟨_, List.getElem?_eq_getElem hlen1⟩
    obtain ⟨sv', mx', ha, hle, hpres, hall⟩ :=
      IH ((growWithVal sv (rn - start) v mx).1.set (rn - start) (cellCmpSet row v).1)
        (growWithVal sv (rn - start) v mx).2
    have hgood2 : goodAt v
        ((growWithVal sv (rn - start) v mx).1.set (rn - start) (cellCmpSet row v).1)
        (rn - start) := by
      refine ⟨(cellCmpSet row v).1, ?_, cellCmpSet_fst_good row v⟩
      simp [List.getElem?_set_self, hlen1]
    refine ⟨sv', mx', ?_, ?_, ?_, ?_⟩
    · simp only [arrLoop, hrow]
      exact ha
    · calc sv.length ≤ (growWithVal sv (rn - start) v mx).1.length := by
            rw [growWithVal_length]; omega
        _ = ((growWithVal sv (rn - start) v mx).1.set (rn - start)
              (cellCmpSet row v).1).length := (List.length_set ..).symm
        _ ≤ sv'.length := hle
    · intro off hoff
      apply hpres
      obtain ⟨row0, hr0, hg0⟩ := hoff
      have hlt0 := lt_of_getElem?_some sv off row0 hr0
      by_cases heq : off = rn - start
      · subst heq
        exact hgood2
      · refine ⟨row0, ?_, hg0⟩
        rw [List.getElem?_set_ne (fun hc => heq hc.symm)]
        rw [growWithVal_front sv (rn - start) v mx off hlt0]
        exact hr0
    · intro rn' hrn'
      rcases List.mem_cons.1 hrn' with h | h
      · subst h
        exact hpres _ hgood2
      · exact hall rn' h

theorem arrLoop_id (v : String) (start : Nat) : ∀ (l : List Nat)
    (sv : List (List CellVal)) (mx : Nat),
    (∀ rn ∈ l, goodAt v sv (rn - start)) →
    arrLoop v start l sv mx = some (sv, mx) := by
  intro l
  induction l with
  | nil => intro sv mx _; rfl
  | cons rn rest IH =>
    intro sv mx h
    obtain ⟨row, hrow, hgood⟩ := h rn (List.mem_cons_self ..)
    have hlt := lt_of_getElem?_some sv (rn - start) row hrow
    have hgrow := growWithVal_of_lt sv (rn - start) v mx hlt
    simp only [arrLoop, hgrow, hrow, cellCmpSet_eq_of_good row v hgood]
    rw [set_self_of_getElem? sv (rn - start) row hrow]
    exact IH sv mx (fun rn' h' => h rn' (List.mem_cons_of_mem _ h'))

/-- C9: reconciling the same (key, val) record twice in sequence against
the same column buffer, with no remote mutation in between, leaves the
buffer (and the whole reconcile state) unchanged on the second pass, and
the second pass takes the "NOT updating value" branch (flag `false`,
i.e. a no-op, not an update).  The hypotheses say the record's key is in
the Key-to-Row Cache with a row at or below the data-start row whose
offset is inside the buffer — exactly the states a run reaches when the
first reconcile did not panic (cached rows are always ≥ the data-start
row in the code). -/
theorem C9_reconcile_idempotent (matchAll addRows colLetter cfgKeyCol : String)
    (start : Nat) (key v : String) (st : SVState) (rowN : Nat)
    (hk : mapGet st.ks.kc key = some rowN) (hsr : start ≤ rowN)
    (hb : rowN - start < st.sv.length) (st1 : SVState) (b1 : Bool)
    (h1 : recordStep matchAll addRows colLetter cfgKeyCol start key v st = some (st1, b1)) :
    recordStep matchAll addRows colLetter cfgKeyCol start key v st1 = some (st1, false) := by
  obtain ⟨row0, hrow0⟩ : ∃ r, st.sv[rowN - start]? = some r :=
    ⟨_, List.getElem?_eq_getElem hb⟩
  have hkm1 : knownKeyMain st.sv (rowN - start) v
      = some (st.sv.set (rowN - start) (cellCmpSet row0 v).1, (cellCmpSet row0 v).2) :=
    knownKeyMain_eq _ _ _ _ hrow0
  obtain ⟨hlen1, hgood1⟩ := knownKeyMain_good _ _ _ _ _ hkm1
  by_cases hma : matchAll = "yes"
  · obtain ⟨sv', mx', ha, hle, hpres, hall⟩ :=
      arrLoop_estab v start ((mapGet st.ks.arr key).getD [])
        (st.sv.set (rowN - start) (cellCmpSet row0 v).1) st.ks.mx
    have h1' : recordStep matchAll addRows colLetter cfgKeyCol start key v st
        = some (⟨sv', ⟨st.ks.kc, st.ks.arr, mx'⟩⟩, (cellCmpSet row0 v).2) := by
      simp [recordStep, hk, hkm1, hma, ha]
    rw [h1'] at h1
    simp only [Option.some.injEq, Prod.mk.injEq] at h1
    obtain ⟨hst1, _⟩ := h1
    subst hst1
    have hg2 : goodAt v sv' (rowN - start) := hpres _ hgood1
    have hkm2 : knownKeyMain sv' (rowN - start) v = some (sv', false) :=
      knownKeyMain_id _ _ _ hg2
    have harr2 : arrLoop v start ((mapGet st.ks.arr key).getD []) sv' mx'
        = some (sv', mx') := arrLoop_id v start _ sv' mx' hall
    simp [recordStep, hk, hkm2, hma, harr2]
  · have h1' : recordStep matchAll addRows colLetter cfgKeyCol start key v st
        = some (⟨st.sv.set (rowN - start) (cellCmpSet row0 v).1, st.ks⟩,
            (cellCmpSet row0 v).2) := by
      simp [recordStep, hk, hkm1, hma]
    rw [h1'] at h1
    simp only [Option.some.injEq, Prod.mk.injEq] at h1
    obtain ⟨hst1, _⟩ := h1
    subst hst1
    have hkm2 : knownKeyMain (st.sv.set (rowN - start) (cellCmpSet row0 v).1)
        (rowN - start) v
        = some (st.sv.set (rowN - start) (cellCmpSet row0 v).1, false) :=
      knownKeyMain_id _ _ _ hgood1
    simp [recordStep, hk, hkm2, hma]

theorem C9_reconcile_idempotent_witness :
    recordStep "no" "no" "B" "A" 5 "k" "new" c9st1 = some (c9st1, false) :=
  C9_reconcile_idempotent "no" "no" "B" "A" 5 "k" "new" c9st 5 rfl (by decide)
    (by decide) c9st1 true rfl

end KpiUploader
